import Mathlib

/-!
Shallow embedding of the velero-plugin-for-microsoft-azure repository
(object store plugin and volume snapshotter plugin) and verification of
properties of its chunked upload, configuration handling, credential
dispatch, and snapshot-name handling.

Go strings are embedded as lists of characters (`Str`), byte buffers as
lists of naturals, Go `map[string]string` values as association lists
(`Config`), `os.Getenv` as a total lookup returning `""` for unset
variables, and the effectful Azure SDK calls as explicit outcome
parameters together with an explicit call trace.
-/

set_option linter.unusedVariables false

/-- Go strings viewed as byte/character sequences (Go `len` and slicing are
index-based, which matches list length and `List.take`/`List.drop`). -/
abbrev Str := List Char

/-- Coerce a Lean string literal to the `Str` embedding. -/
def str (s : String) : Str := s.toList

/-- Characters other than newline; RE2 `.` matches exactly these. -/
def noNL (s : Str) : Bool := s.all (fun c => c != '\n')

/-- Decimal digits, with explicit fuel so that the definition is
structurally recursive (and hence computable by the kernel). -/
def natDigitsAux : Nat → Nat → List Char
  | 0, _ => []
  | fuel + 1, n =>
    if n < 10 then [Char.ofNat (48 + n)]
    else natDigitsAux fuel (n / 10) ++ [Char.ofNat (48 + n % 10)]

/-- Decimal digits of a natural number, most significant first
(the digits produced by Go `fmt` / `strconv` for a non-negative value). -/
def natDigits (n : Nat) : List Char := natDigitsAux (n + 1) n

/-- `fmt.Sprintf("%08d", i)` — the decimal digits of `i` left-padded with
`'0'` to a width of at least 8, as used for block IDs in `PutObject`. -/
def blockID (i : Nat) : Str :=
  List.replicate (8 - (natDigits i).length) '0' ++ natDigits i

/-- Outcome of a single `body.Read(block)` call: `eof` is `io.EOF`,
`other` is any other read error. -/
inductive ReadErr where
  | eof
  | other (msg : Str)
deriving DecidableEq, Repr

/-- One `body.Read(block)` call of the `PutObject` loop: the bytes
returned (`n = data.length`) and the error value returned alongside them.
Reading from an exhausted `io.Reader` yields `(0, io.EOF)`, so a finite
list of steps describes the whole behavior of the reader; a step list that
ends without an error stands for a reader whose next read is `(0, EOF)`. -/
structure ReadStep where
  data : List Nat
  err : Option ReadErr
deriving DecidableEq, Repr

/-- Outcome functions of the block blob the `PutObject` loop talks to:
the error (if any) returned by `StageBlock` for a given block ID and
chunk, and by `CommitBlockList` for a given block ID list. -/
structure BlobBehavior where
  putBlockResult : Str → List Nat → Option Str
  putBlockListResult : List Str → Option Str

/-- A call `PutObject` issues against the blob. -/
inductive BlobCall where
  | putBlock (blockID : Str) (chunk : List Nat)
  | putBlockList (blocks : List Str)
deriving DecidableEq, Repr

/-- Whether a blob call is the commit (`PutBlockList`). -/
def BlobCall.isCommit : BlobCall → Bool
  | .putBlock _ _ => false
  | .putBlockList _ => true

/-- Result of a `PutObject` run: the calls issued against the blob, in
order, and the error returned by `PutObject`. -/
structure PutResult where
  calls : List BlobCall
  err : Option Str
deriving DecidableEq, Repr

/-- The final `blob.PutBlockList(blockIDs, nil)` step of `PutObject`. -/
def commitBlockList (b : BlobBehavior) (ids : List Str) : PutResult :=
  match b.putBlockListResult ids with
  | some e => ⟨[.putBlockList ids], some (str "error putting block list: " ++ e)⟩
  | none => ⟨[.putBlockList ids], none⟩

/-- The read/stage loop of `ObjectStore.PutObject` (object_store.go
lines 1190-1220), with `acc` the accumulated `blockIDs` slice: read a
step; if `n > 0` stage block `fmt.Sprintf("%08d", len(blockIDs))` and
append its ID; on `io.EOF` break to the commit; on any other read error
or a staging error return that error without committing. -/
def putObjectLoop (b : BlobBehavior) : List ReadStep → List Str → PutResult
  | [], acc => commitBlockList b acc
  | s :: rest, acc =>
    if s.data.length > 0 then
      match b.putBlockResult (blockID acc.length) s.data with
      | some e =>
        ⟨[.putBlock (blockID acc.length) s.data],
         some (str "error putting block " ++ blockID acc.length ++ str ": " ++ e)⟩
      | none =>
        let r : PutResult :=
          match s.err with
          | none => putObjectLoop b rest (acc ++ [blockID acc.length])
          | some .eof => commitBlockList b (acc ++ [blockID acc.length])
          | some (.other m) => ⟨[], some (str "error reading block from body: " ++ m)⟩
        ⟨.putBlock (blockID acc.length) s.data :: r.calls, r.err⟩
    else
      match s.err with
      | none => putObjectLoop b rest acc
      | some .eof => commitBlockList b acc
      | some (.other m) => ⟨[], some (str "error reading block from body: " ++ m)⟩

/-- `ObjectStore.PutObject` against a blob with outcomes `b` and a reader
whose behavior is `steps`. -/
def putObject (b : BlobBehavior) (steps : List ReadStep) : PutResult :=
  putObjectLoop b steps []

/-- What the read loop does when no staging error interferes: either it
reaches the commit having staged `chunks` (the non-empty reads, in
order), or it is aborted by a non-EOF read error. -/
inductive LoopOutcome where
  | ok (chunks : List (List Nat))
  | readErr (msg : Str)
deriving DecidableEq, Repr

/-- The chunks the `PutObject` loop stages, read off the reader behavior
alone: data of each step until the first `io.EOF` (inclusive) or the
first other error (which aborts). -/
def loopPlan : List ReadStep → LoopOutcome
  | [] => .ok []
  | s :: rest =>
    let tail : LoopOutcome :=
      match s.err with
      | none => loopPlan rest
      | some .eof => .ok []
      | some (.other m) => .readErr m
    if s.data.length > 0 then
      match tail with
      | .ok cs => .ok (s.data :: cs)
      | .readErr m => .readErr m
    else tail

/-- All bytes the loop reads from the body before stopping (data of the
steps it consumes, in order). -/
def bytesRead : List ReadStep → List Nat
  | [] => []
  | s :: rest =>
    s.data ++ (match s.err with
      | some _ => []
      | none => bytesRead rest)

/-- The `PutBlock` calls staging `chunks` with block IDs numbered from
`n` upward. -/
def stagedCallsFrom (n : Nat) : List (List Nat) → List BlobCall
  | [] => []
  | c :: cs => .putBlock (blockID n) c :: stagedCallsFrom (n + 1) cs

/-- The block IDs `blockID n, blockID (n+1), ...` (`k` of them). -/
def idsFrom (n : Nat) : Nat → List Str
  | 0 => []
  | k + 1 => blockID n :: idsFrom (n + 1) k

/-! ## Configuration: `getBlockSize` (object_store.go lines 1153-1177) -/

/-- Go `map[string]string` (and the process environment) as an
association list; lookup returns the first binding. -/
abbrev Config := List (String × String)

/-- `config[key]` with the Go zero value `""` for a missing key. -/
def cfgGet (config : Config) (key : String) : String :=
  (config.lookup key).getD ""

def blockSizeConfigKey : String := "blockSizeInBytes"

/-- blocks must be less than/equal to 100MB in size. -/
def maxBlockSize : Int := 100 * 1024 * 1024

def defaultBlockSize : Int := 1 * 1024 * 1024

/-- Largest value of Go `int` (64-bit). -/
def goIntMax : Int := 9223372036854775807

/-- Smallest value of Go `int` (64-bit). -/
def goIntMin : Int := -9223372036854775808

/-- Digit list to a natural number (base 10). -/
def digitsVal (ds : List Char) : Nat :=
  ds.foldl (fun a c => a * 10 + (c.toNat - 48)) 0

/-- `strconv.Atoi`: optional sign, then one or more decimal digits, and
the value must fit in a 64-bit `int`; anything else is an error (`none`). -/
def atoi (s : String) : Option Int :=
  match s.toList with
  | [] => none
  | c :: rest =>
    let (neg, ds) :=
      if c = '-' then (true, rest)
      else if c = '+' then (false, rest)
      else (false, c :: rest)
    if ds.isEmpty then none
    else if !ds.all Char.isDigit then none
    else
      let v : Int := if neg then -(digitsVal ds : Int) else (digitsVal ds : Int)
      if v < goIntMin ∨ goIntMax < v then none else some v

/-- `getBlockSize` (object_store.go lines 1153-1177): the default when the
key is absent or its value fails to parse or is `<= 0`, the maximum when
the parsed value exceeds it, and the parsed value otherwise. -/
def getBlockSize (config : Config) : Int :=
  match config.lookup blockSizeConfigKey with
  | none => defaultBlockSize
  | some val =>
    match atoi val with
    | none => defaultBlockSize
    | some blockSize =>
      if blockSize ≤ 0 then defaultBlockSize
      else if maxBlockSize < blockSize then maxBlockSize
      else blockSize

/-! ## Credential resolution (object_store.go lines 593-644, 667-688) -/

def storageAccountKeyEnvVarConfigKey : String := "storageAccountKeyEnvVar"

def useAADConfigKey : String := "useAAD"

/-- `os.Getenv` over an environment snapshot: `""` when unset. -/
def getenv (env : Config) (k : String) : String := (env.lookup k).getD ""

/-- ASCII lower-casing of one character. -/
def charToLower (c : Char) : Char :=
  if 'A' ≤ c ∧ c ≤ 'Z' then Char.ofNat (c.toNat + 32) else c

/-- `strings.ToLower` on the ASCII strings the plugin compares
(`useAAD` flag values). -/
def strToLower (s : String) : String := String.mk (s.toList.map charToLower)

/-- `getStorageAccountKey` (object_store.go lines 593-600): when the
config names an env var in `storageAccountKeyEnvVar`, return that env
var's value, else `""`. -/
def getStorageAccountKey (config env : Config) : String :=
  let secretKeyEnvVar := cfgGet config storageAccountKeyEnvVarConfigKey
  if secretKeyEnvVar ≠ "" then getenv env secretKeyEnvVar else ""

/-- Which token source inside the AAD default credential chain ends up
being used. -/
inductive AADCred where
  | spSecret
  | spCert
  | workloadIdentity
  | restOfChain
deriving DecidableEq, Repr

/-- The credential mechanism `ObjectStore.Init`/`getServiceClient`
settles on. -/
inductive CredMechanism where
  | explicitKey
  | aad (c : AADCred)
  | listKeys
deriving DecidableEq, Repr

/-- Service-principal client-secret variables are all set. -/
def spSecretAvailable (env : Config) : Bool :=
  getenv env "AZURE_TENANT_ID" != "" && getenv env "AZURE_CLIENT_ID" != ""
    && getenv env "AZURE_CLIENT_SECRET" != ""

/-- Service-principal client-certificate variables are set. -/
def spCertAvailable (env : Config) : Bool :=
  getenv env "AZURE_TENANT_ID" != "" && getenv env "AZURE_CLIENT_ID" != ""
    && getenv env "AZURE_CLIENT_CERTIFICATE_PATH" != ""

/-- Workload-identity federated-token variables are set. -/
def workloadIdentityAvailable (env : Config) : Bool :=
  getenv env "AZURE_FEDERATED_TOKEN_FILE" != "" && getenv env "AZURE_CLIENT_ID" != ""

/-- Modelled from the spec: the `azidentity.NewDefaultAzureCredential`
chain used by `getServiceClient` lives in the Azure SDK, outside this
repository's sources; the spec describes its order as service-principal
secret or certificate, then workload-identity federated token, then the
rest of the chain (managed identity etc.). -/
def defaultAzureCredentialChain (env : Config) : AADCred :=
  if spSecretAvailable env then .spSecret
  else if spCertAvailable env then .spCert
  else if workloadIdentityAvailable env then .workloadIdentity
  else .restOfChain

/-- The dispatch of `getServiceClient` (object_store.go lines 613-644):
with a shared key credential already in hand use it; otherwise use AAD
token credentials when `useAAD` lower-cases to `"true"`; otherwise fetch
an account key through the management-plane `ListKeys` call
(`fetchStorageAccountKey`, lines 667-688). -/
def getServiceClientMechanism (useAAD : String) (hasSharedKey : Bool) (env : Config) :
    CredMechanism :=
  if hasSharedKey then .explicitKey
  else if strToLower useAAD = "true" then .aad (defaultAzureCredentialChain env)
  else .listKeys

/-- The credential mechanism resolved by `ObjectStore.Init`
(object_store.go lines 691-762): the shared key credential exists exactly
when `getStorageAccountKey` returned a non-empty key. -/
def initCredResolution (config env : Config) : CredMechanism :=
  getServiceClientMechanism (cfgGet config useAADConfigKey)
    (getStorageAccountKey config env ≠ "") env

/-- The resolution order as the spec sentence states it: explicit key,
otherwise service-principal secret/certificate, otherwise
workload-identity federated token, and a key-listing API call only as the
final fallback. Stated from the spec's words for comparison with
`initCredResolution`. -/
def specCredResolution (config env : Config) : CredMechanism :=
  if getStorageAccountKey config env ≠ "" then .explicitKey
  else if spSecretAvailable env then .aad .spSecret
  else if spCertAvailable env then .aad .spCert
  else if workloadIdentityAvailable env then .aad .workloadIdentity
  else .listKeys

/-! ## `Init` and the config-key allow-list -/

def resourceGroupConfigKey : String := "resourceGroup"

def credentialsFileConfigKey : String := "credentialsFile"

def subscriptionIDConfigKey : String := "subscriptionId"

def storageAccountConfigKey : String := "storageAccount"

def storageAccountURIConfigKey : String := "storageAccountURI"

def activeDirectoryAuthorityURIConfigKey : String := "activeDirectoryAuthorityURI"

def apiVersionConfigKey : String := "apiVersion"

def apiTimeoutConfigKey : String := "apiTimeout"

def snapsIncrementalConfigKey : String := "incremental"

def snapsTagsConfigKey : String := "tags"

/-- Modelled from the spec: the host framework's
`ValidateObjectStoreConfigKeys` / `ValidateVolumeSnapshotterConfigKeys`
(from the velero plugin framework, outside this repository) accept a
config exactly when every key belongs to the allow-list. -/
def validateConfigKeys (config : Config) (validKeys : List String) : Bool :=
  config.all (fun kv => validKeys.contains kv.1)

/-- The allow-list `ObjectStore.Init` passes to the validator
(object_store.go lines 1122-1133). -/
def objectStoreAllowList : List String :=
  [resourceGroupConfigKey, storageAccountConfigKey, subscriptionIDConfigKey,
   blockSizeConfigKey, activeDirectoryAuthorityURIConfigKey,
   storageAccountURIConfigKey, useAADConfigKey,
   storageAccountKeyEnvVarConfigKey, credentialsFileConfigKey,
   apiVersionConfigKey]

/-- The allow-list `VolumeSnapshotter.Init` passes to the validator
(volume_snapshotter.go lines 89-96). -/
def snapshotterAllowList : List String :=
  [resourceGroupConfigKey, apiTimeoutConfigKey, subscriptionIDConfigKey,
   snapsIncrementalConfigKey, snapsTagsConfigKey, credentialsFileConfigKey]

/-- Abstract handle for an SDK service client held by the getters. -/
structure ServiceClientRef where
  id : Nat
deriving DecidableEq, Repr

/-- `azblob.SharedKeyCredential`. -/
structure SharedKey where
  accountName : String
  accountKey : String
deriving DecidableEq, Repr

/-- The `ObjectStore` receiver state (object_store.go lines 1106-1114);
the getters hold the service client the successful `Init` produced. -/
structure ObjectStore where
  containerGetter : Option ServiceClientRef
  blobGetter : Option ServiceClientRef
  blockSize : Int
  sharedKeyCredential : Option SharedKey
deriving DecidableEq, Repr

/-- Outcome of `util.NewStorageClient`: the client and the shared key
credential (non-nil exactly when storage-account-key auth was used). -/
structure StorageClientOutcome where
  client : ServiceClientRef
  sharedKey : Option SharedKey
deriving DecidableEq, Repr

/-- `ObjectStore.Init` (object_store.go lines 1121-1151): validate the
config keys first and return the validation error before touching the
receiver; then create the storage client (`util.NewStorageClient`, whose
outcome is the explicit parameter), and only on success set the
credential, the getters and the block size. -/
def objectStoreInit (o : ObjectStore) (config : Config)
    (newStorageClient : Except String StorageClientOutcome) :
    ObjectStore × Option String :=
  if !validateConfigKeys config objectStoreAllowList then
    (o, some "config has invalid keys")
  else
    match newStorageClient with
    | .error e => (o, some e)
    | .ok res =>
      ({ containerGetter := some res.client
         blobGetter := some res.client
         blockSize := getBlockSize config
         sharedKeyCredential := res.sharedKey }, none)

/-! ## ObjectStore operations (object_store.go lines 1179-1290) -/

/-- An Azure SDK error as `bloberror.HasCode` sees it: the error code of
a `ResponseError`, or `none` when the error carries no blob error code. -/
structure AzError where
  code : Option String
deriving DecidableEq, Repr

/-- `azureBlob.Exists` (object_store.go lines 1043-1052): `GetProperties`
succeeds (`props = none` means no error) ⇒ `(true, nil)`;
`ContainerNotFound`/`BlobNotFound` ⇒ `(false, nil)`; any other error is
passed through. -/
def blobExists (props : Option AzError) : Bool × Option AzError :=
  match props with
  | none => (true, none)
  | some e =>
    if e.code = some "ContainerNotFound" ∨ e.code = some "BlobNotFound" then (false, none)
    else (false, some e)

/-- `ObjectStore.ObjectExists` (object_store.go lines 1223-1231): get the
blob for the bucket/key, call `Exists`, wrap a non-nil error. -/
def objectExistsOp (o : ObjectStore) (bucket key : String) (props : Option AzError) :
    (Bool × Option AzError) × ObjectStore :=
  match blobExists props with
  | (_, some e) => ((false, some e), o)
  | (ex, none) => ((ex, none), o)

/-- `ObjectStore.PutObject` as a method: the receiver is never written. -/
def putObjectOp (o : ObjectStore) (bucket key : String) (b : BlobBehavior)
    (steps : List ReadStep) : PutResult × ObjectStore :=
  (putObject b steps, o)

/-- `ObjectStore.GetObject` (object_store.go lines 1233-1236): returns
the download stream from `blob.Get` unchanged. -/
def getObjectOp (o : ObjectStore) (bucket key : String)
    (download : Except String Nat) : Except String Nat × ObjectStore :=
  (download, o)

/-- `ObjectStore.DeleteObject` (object_store.go lines 1281-1285). -/
def deleteObjectOp (o : ObjectStore) (bucket key : String)
    (delete : Option String) : Option String × ObjectStore :=
  (delete, o)

/-- The paging loop shared by `ListObjects` and `ListCommonPrefixes`:
walk the pages, abort with the first page error, else concatenate the
names of every page. -/
def pagedNames : List (Except String (List String)) → Except String (List String)
  | [] => .ok []
  | .error e :: _ => .error e
  | .ok ns :: rest =>
    match pagedNames rest with
    | .error e => .error e
    | .ok acc => .ok (ns ++ acc)

/-- `ObjectStore.ListObjects` (object_store.go lines 1260-1279). -/
def listObjectsOp (o : ObjectStore) (bucket pre : String)
    (pages : List (Except String (List String))) :
    Except String (List String) × ObjectStore :=
  (pagedNames pages, o)

/-- `ObjectStore.ListCommonPrefixes` (object_store.go lines 1238-1258). -/
def listCommonPrefixesOp (o : ObjectStore) (bucket pre delimiter : String)
    (pages : List (Except String (List String))) :
    Except String (List String) × ObjectStore :=
  (pagedNames pages, o)

/-- `ObjectStore.CreateSignedURL` (object_store.go lines 1287-1290):
returns `blob.GetSASURI(ttl, o.sharedKeyCredential)` unchanged. -/
def createSignedURLOp (o : ObjectStore) (bucket key : String) (ttl : Nat)
    (sasResult : Except String String) : Except String String × ObjectStore :=
  (sasResult, o)

/-! ## Volume snapshotter (volume_snapshotter.go lines 61-475) -/

/-- The `VolumeSnapshotter` receiver state (volume_snapshotter.go
lines 61-72); the two clients are abstract handles. -/
structure VolumeSnapshotter where
  disks : Option ServiceClientRef
  snaps : Option ServiceClientRef
  disksSubscription : Str
  snapsSubscription : Str
  disksResourceGroup : Str
  snapsResourceGroup : Str
  snapsIncremental : Option Bool
  apiTimeout : Nat
  snapsTags : List (Str × Str)
deriving DecidableEq, Repr

/-- `VolumeSnapshotter.Init` (volume_snapshotter.go lines 88-204):
validate the config keys first and return before touching the receiver;
the remainder of `Init` (credentials file, env vars, cloud, timeouts,
clients) is abstracted as the `rest` outcome it would produce. -/
def volumeSnapshotterInit (b : VolumeSnapshotter) (config : Config)
    (rest : VolumeSnapshotter × Option String) : VolumeSnapshotter × Option String :=
  if !validateConfigKeys config snapshotterAllowList then
    (b, some "config has invalid keys")
  else rest

/-- `snapshotIdentifier` (volume_snapshotter.go lines 74-78). -/
structure snapshotIdentifier where
  subscription : Str
  resourceGroup : Str
  name : Str
deriving DecidableEq, Repr

/-- `getComputeResourceName` (volume_snapshotter.go lines 386-388). -/
def getComputeResourceName (subscription resourceGroup resource name : Str) : Str :=
  str "/subscriptions/" ++ subscription ++ str "/resourceGroups/" ++ resourceGroup
    ++ str "/providers/Microsoft.Compute/" ++ resource ++ str "/" ++ name

/-- `snapshotIdentifier.String` (volume_snapshotter.go lines 80-82). -/
def snapshotIdentifierString (si : snapshotIdentifier) : Str :=
  getComputeResourceName si.subscription si.resourceGroup (str "snapshots") si.name

/-- The snapshot name built by `VolumeSnapshotter.CreateSnapshot`
(volume_snapshotter.go lines 282-294): `volumeID + "-" + uid` truncated
on the left part so the whole name has at most 80 characters. -/
def snapshotName (volumeID uid : Str) : Str :=
  if volumeID.length ≤ 80 - ('-' :: uid).length then volumeID ++ '-' :: uid
  else volumeID.take (80 - ('-' :: uid).length) ++ '-' :: uid

/-! ### `parseFullSnapshotName` (volume_snapshotter.go lines 390-423)

The function matches the anchored RE2 pattern
`^\/subscriptions\/(.*)\/resourceGroups\/(.*)\/providers\/Microsoft.Compute\/snapshots\/(.*)$`.
We embed the regex semantics over `Str`: `.` matches any character except
newline (so the unescaped dot in `Microsoft.Compute` is a wildcard), the
groups are greedy — among all decompositions the match maximizes the
first group, then the second — and the pattern is anchored at both ends. -/

/-- All decompositions `s = pre ++ post`, ordered by increasing length of
`pre`. -/
def allSplits : Str → List (Str × Str)
  | [] => [([], [])]
  | c :: t => ([], c :: t) :: (allSplits t).map (fun p => (c :: p.1, p.2))

/-- All decompositions `s = x ++ sep ++ r` for a literal separator,
ordered by increasing length of `x`. -/
def sepSplits (sep s : Str) : List (Str × Str) :=
  (allSplits s).filterMap (fun p =>
    if sep.isPrefixOf p.2 then some (p.1, p.2.drop sep.length) else none)

/-- The middle literal of the pattern with the wildcard for the unescaped
dot: `/providers/Microsoft` then any non-newline character then
`Compute/snapshots/`. -/
def bPat (c : Char) : Str :=
  str "/providers/Microsoft" ++ c :: str "Compute/snapshots/"

/-- Match `bPat` at the front of `r`, returning the wildcard character
and what follows. -/
def matchBHead (r : Str) : Option (Char × Str) :=
  if (str "/providers/Microsoft").isPrefixOf r then
    match r.drop 20 with
    | [] => none
    | c :: r2 =>
      if c != '\n' && (str "Compute/snapshots/").isPrefixOf r2 then
        some (c, r2.drop 18)
      else none
  else none

/-- All decompositions `s = y ++ bPat c ++ z`, ordered by increasing
length of `y`. -/
def bSplits (s : Str) : List (Str × Char × Str) :=
  (allSplits s).filterMap (fun p =>
    match matchBHead p.2 with
    | some (c, z) => some (p.1, c, z)
    | none => none)

/-- One candidate decomposition of the text after `/subscriptions/`: a
first-group value `p.1` (which must be newline-free) together with the
greedy (last, i.e. second-group-maximal) valid decomposition of the
remainder `p.2` around the middle pattern. -/
def parseCand (p : Str × Str) : Option snapshotIdentifier :=
  if noNL p.1 then
    match ((bSplits p.2).filter (fun q => noNL q.1 && noNL q.2.2)).getLast? with
    | some (y, _, z) => some ⟨p.1, y, z⟩
    | none => none
  else none

/-- `parseFullSnapshotName` (volume_snapshotter.go lines 399-423): `none`
when the regex does not match, otherwise the identifier made of the three
greedy submatches (`sepSplits` lists first-group candidates in increasing
length, so `getLast?` picks the greedy one; same for the second group
inside `parseCand`). -/
def parseFullSnapshotName (s : Str) : Option snapshotIdentifier :=
  if (str "/subscriptions/").isPrefixOf s then
    ((sepSplits (str "/resourceGroups/") (s.drop 15)).filterMap parseCand).getLast?
  else none

/-- Substring containment (Go `strings.Contains`), used to state which
inputs avoid the separator literals. -/
def containsSeq (s pat : Str) : Bool :=
  (allSplits s).any (fun p => pat.isPrefixOf p.2)

/-- Disk info returned by `disks.Get`/`snaps.Get` (the fields the plugin
reads: tags and location). -/
structure DiskInfo where
  tags : List (Str × Str)
  location : Str
deriving DecidableEq, Repr

/-- Outcomes of the SDK calls `CreateSnapshot` performs, plus the UUID
drawn for the name suffix. -/
structure SnapEnv where
  diskInfo : Except String DiskInfo
  uid : Str
  beginCreate : Except String Unit
  poll : Except String Unit

/-- `VolumeSnapshotter.CreateSnapshot` (volume_snapshotter.go
lines 274-321): look the disk up, build the bounded snapshot name, create
and poll, and return the fully qualified compute resource name of the
snapshot. -/
def createSnapshotOp (b : VolumeSnapshotter) (volumeID volumeAZ : Str)
    (tags : List (Str × Str)) (env : SnapEnv) : Except String Str × VolumeSnapshotter :=
  match env.diskInfo with
  | .error e => (.error e, b)
  | .ok _ =>
    match env.beginCreate with
    | .error e => (.error e, b)
    | .ok _ =>
      match env.poll with
      | .error e => (.error e, b)
      | .ok _ =>
        (.ok (getComputeResourceName b.snapsSubscription b.snapsResourceGroup
          (str "snapshots") (snapshotName volumeID env.uid)), b)

/-- Outcomes of the SDK calls `DeleteSnapshot` performs: the HTTP status
of the initial `Get` probe when it fails, then delete/poll outcomes. -/
structure DelEnv where
  getStatus : Option Nat
  beginDelete : Except String Unit
  poll : Except String Unit

/-- `VolumeSnapshotter.DeleteSnapshot` (volume_snapshotter.go
lines 356-384): parse the full snapshot name (propagating the parse
error), treat a 404 on the `Get` probe as success, else delete and poll. -/
def deleteSnapshotOp (b : VolumeSnapshotter) (snapshotID : Str) (env : DelEnv) :
    Option String × VolumeSnapshotter :=
  match parseFullSnapshotName snapshotID with
  | none => (some "snapshot URI could not be parsed", b)
  | some _ =>
    if env.getStatus = some 404 then (none, b)
    else
      match env.beginDelete with
      | .error e => (some e, b)
      | .ok _ =>
        match env.poll with
        | .error e => (some e, b)
        | .ok _ => (none, b)

/-- Outcomes of the SDK calls `CreateVolumeFromSnapshot` performs. -/
structure RestoreEnv where
  snapshotInfo : Except String DiskInfo
  uid : Str
  beginCreate : Except String Unit
  poll : Except String Unit

/-- `VolumeSnapshotter.CreateVolumeFromSnapshot` (volume_snapshotter.go
lines 206-259): parse the snapshot ID, look the snapshot up, create the
disk `restore-<uuid>` and poll, returning the disk name. -/
def createVolumeFromSnapshotOp (b : VolumeSnapshotter)
    (snapshotID volumeType volumeAZ : Str) (iops : Option Int) (env : RestoreEnv) :
    Except String Str × VolumeSnapshotter :=
  match parseFullSnapshotName snapshotID with
  | none => (.error "snapshot URI could not be parsed", b)
  | some _ =>
    match env.snapshotInfo with
    | .error e => (.error e, b)
    | .ok _ =>
      match env.beginCreate with
      | .error e => (.error e, b)
      | .ok _ =>
        match env.poll with
        | .error e => (.error e, b)
        | .ok _ => (.ok (str "restore-" ++ env.uid), b)

/-- `VolumeSnapshotter.GetVolumeInfo` (volume_snapshotter.go
lines 261-272): the SKU name of the disk, erroring on a nil SKU. -/
def getVolumeInfoOp (b : VolumeSnapshotter) (volumeID volumeAZ : Str)
    (res : Except String (Option Str)) :
    Except String (Str × Option Int) × VolumeSnapshotter :=
  match res with
  | .error e => (.error e, b)
  | .ok none => (.error "disk has a nil SKU", b)
  | .ok (some sku) => (.ok (sku, none), b)

/-- `pv.Spec.CSI` as read by the snapshotter. -/
structure CSISpec where
  driver : Str
  volumeHandle : Str
deriving DecidableEq, Repr

/-- `pv.Spec.AzureDisk` as read by the snapshotter. -/
structure AzureDiskSpec where
  diskName : Str
  dataDiskURI : Str
deriving DecidableEq, Repr

/-- The persistent volume fields `GetVolumeID`/`SetVolumeID` touch. -/
structure PersistentVolume where
  csi : Option CSISpec
  azureDisk : Option AzureDiskSpec
deriving DecidableEq, Repr

/-- Does the RE2 pattern `\/Microsoft.Compute\/disks\/.*$` match at the
head of `s` (unescaped dot = non-newline wildcard; the trailing `.*$`
must reach the end without a newline)? -/
def diskPatHere (s : Str) : Bool :=
  (str "/Microsoft").isPrefixOf s &&
    (match s.drop 10 with
     | [] => false
     | c :: rest => c != '\n' && (str "Compute/disks/").isPrefixOf rest
         && noNL (rest.drop 14))

/-- `diskURIRegexp.FindString`: the leftmost match of
`\/Microsoft.Compute\/disks\/.*$`, or `""` when there is none. -/
def diskURIFind : Str → Str
  | [] => []
  | c :: t => if diskPatHere (c :: t) then c :: t else diskURIFind t

/-- `strings.TrimPrefix`: drop `pre` from the front of `s` when it is
literally there, else return `s` unchanged. -/
def trimLeading (s pre : Str) : Str :=
  if pre.isPrefixOf s then s.drop pre.length else s

/-- `VolumeSnapshotter.GetVolumeID` (volume_snapshotter.go
lines 425-447): for the Azure disk CSI driver, strip the
`/Microsoft.Compute/disks/` part from the volume handle; otherwise fall
back to `spec.azureDisk.diskName`. -/
def getVolumeIDOp (b : VolumeSnapshotter) (pv : PersistentVolume) :
    Except String Str × VolumeSnapshotter :=
  let azureDiskPart : Except String Str :=
    match pv.azureDisk with
    | none => .ok []
    | some ad =>
      if ad.diskName = [] then .error "spec.azureDisk.diskName not found"
      else .ok ad.diskName
  match pv.csi with
  | some csi =>
    if csi.driver = str "disk.csi.azure.com" then
      (.ok (trimLeading (diskURIFind csi.volumeHandle) (str "/Microsoft.Compute/disks/")), b)
    else (azureDiskPart, b)
  | none => (azureDiskPart, b)

/-- `VolumeSnapshotter.SetVolumeID` (volume_snapshotter.go
lines 449-475): rewrite the CSI volume handle (for the Azure disk CSI
driver) or the `azureDisk` name and URI to point at `volumeID`. -/
def setVolumeIDOp (b : VolumeSnapshotter) (pv : PersistentVolume) (volumeID : Str) :
    Except String PersistentVolume × VolumeSnapshotter :=
  let fullName :=
    getComputeResourceName b.disksSubscription b.disksResourceGroup
      (str "disks") volumeID
  match pv.csi with
  | some csi =>
    if csi.driver = str "disk.csi.azure.com" then
      (.ok { pv with csi := some { csi with volumeHandle := fullName } }, b)
    else (.error "unable to handle CSI driver", b)
  | none =>
    match pv.azureDisk with
    | some _ =>
      (.ok { pv with azureDisk := some ⟨volumeID, fullName⟩ }, b)
    | none => (.error "spec.csi and spec.azureDisk not found", b)

/-! ## The host plugin contracts (signatures, as embedded) -/

/-- The host's object-store contract: one field per operation, with the
embedded signature (receiver plus Go arguments plus SDK outcomes). -/
structure ObjectStoreAPI where
  init : ObjectStore → Config → Except String StorageClientOutcome →
    ObjectStore × Option String
  putObject : ObjectStore → String → String → BlobBehavior → List ReadStep →
    PutResult × ObjectStore
  getObject : ObjectStore → String → String → Except String Nat →
    Except String Nat × ObjectStore
  objectExists : ObjectStore → String → String → Option AzError →
    (Bool × Option AzError) × ObjectStore
  deleteObject : ObjectStore → String → String → Option String →
    Option String × ObjectStore
  listObjects : ObjectStore → String → String → List (Except String (List String)) →
    Except String (List String) × ObjectStore
  listCommonPrefixes : ObjectStore → String → String → String →
    List (Except String (List String)) → Except String (List String) × ObjectStore
  createSignedURL : ObjectStore → String → String → Nat → Except String String →
    Except String String × ObjectStore

/-- The host's volume-snapshotter contract. -/
structure VolumeSnapshotterAPI where
  init : VolumeSnapshotter → Config → VolumeSnapshotter × Option String →
    VolumeSnapshotter × Option String
  createSnapshot : VolumeSnapshotter → Str → Str → List (Str × Str) → SnapEnv →
    Except String Str × VolumeSnapshotter
  deleteSnapshot : VolumeSnapshotter → Str → DelEnv →
    Option String × VolumeSnapshotter
  createVolumeFromSnapshot : VolumeSnapshotter → Str → Str → Str → Option Int →
    RestoreEnv → Except String Str × VolumeSnapshotter
  getVolumeInfo : VolumeSnapshotter → Str → Str → Except String (Option Str) →
    Except String (Str × Option Int) × VolumeSnapshotter
  getVolumeID : VolumeSnapshotter → PersistentVolume →
    Except String Str × VolumeSnapshotter
  setVolumeID : VolumeSnapshotter → PersistentVolume → Str →
    Except String PersistentVolume × VolumeSnapshotter

/-- The object-store plugin's implementation of the contract. -/
def objectStoreImpl : ObjectStoreAPI :=
  ⟨objectStoreInit, putObjectOp, getObjectOp, objectExistsOp, deleteObjectOp,
   listObjectsOp, listCommonPrefixesOp, createSignedURLOp⟩

/-- The snapshotter plugin's implementation of the contract. -/
def volumeSnapshotterImpl : VolumeSnapshotterAPI :=
  ⟨volumeSnapshotterInit, createSnapshotOp, deleteSnapshotOp,
   createVolumeFromSnapshotOp, getVolumeInfoOp, getVolumeIDOp, setVolumeIDOp⟩

/-! # Theorems -/

/-! ## PutObject: success-path characterization -/

theorem putObjectLoop_ok (b : BlobBehavior)
    (hpb : ∀ id c, b.putBlockResult id c = none)
    (hpbl : ∀ ids, b.putBlockListResult ids = none) :
    ∀ (steps : List ReadStep) (acc : List Str) (cs : List (List Nat)),
      loopPlan steps = .ok cs →
      putObjectLoop b steps acc =
        ⟨stagedCallsFrom acc.length cs
          ++ [.putBlockList (acc ++ idsFrom acc.length cs.length)], none⟩ := by
  intro steps
  induction steps with
  | nil =>
    intro acc cs hplan
    simp only [loopPlan] at hplan
    cases hplan
    simp [putObjectLoop, commitBlockList, hpbl, stagedCallsFrom, idsFrom]
  | cons s rest ih =>
    intro acc cs hplan
    simp only [loopPlan] at hplan
    simp only [putObjectLoop, hpb]
    by_cases hd : s.data.length > 0
    · rw [if_pos hd] at hplan ⊢
      cases herr : s.err with
      | none =>
        rw [herr] at hplan
        cases hrest : loopPlan rest with
        | ok cs2 =>
          rw [hrest] at hplan
          cases hplan
          rw [ih (acc ++ [blockID acc.length]) cs2 hrest]
          simp [stagedCallsFrom, idsFrom, List.append_assoc]
        | readErr m =>
          rw [hrest] at hplan
          cases hplan
      | some e =>
        cases e with
        | eof =>
          rw [herr] at hplan
          cases hplan
          simp [commitBlockList, hpbl, stagedCallsFrom, idsFrom, List.append_assoc]
        | other m =>
          rw [herr] at hplan
          cases hplan
    · rw [if_neg hd] at hplan ⊢
      cases herr : s.err with
      | none =>
        rw [herr] at hplan
        exact ih acc cs hplan
      | some e =>
        cases e with
        | eof =>
          rw [herr] at hplan
          cases hplan
          simp [commitBlockList, hpbl, stagedCallsFrom, idsFrom]
        | other m =>
          rw [herr] at hplan
          cases hplan

theorem loopPlan_ok_join :
    ∀ (steps : List ReadStep) (cs : List (List Nat)),
      loopPlan steps = .ok cs → cs.flatten = bytesRead steps := by
  intro steps
  induction steps with
  | nil =>
    intro cs hplan
    simp only [loopPlan] at hplan
    cases hplan
    simp [bytesRead]
  | cons s rest ih =>
    intro cs hplan
    simp only [loopPlan] at hplan
    simp only [bytesRead]
    by_cases hd : s.data.length > 0
    · rw [if_pos hd] at hplan
      cases herr : s.err with
      | none =>
        rw [herr] at hplan
        cases hrest : loopPlan rest with
        | ok cs2 =>
          rw [hrest] at hplan
          cases hplan
          simp [ih cs2 hrest]
        | readErr m => rw [hrest] at hplan; cases hplan
      | some e =>
        cases e with
        | eof => rw [herr] at hplan; cases hplan; simp
        | other m => rw [herr] at hplan; cases hplan
    · rw [if_neg hd] at hplan
      have hnil : s.data = [] := List.length_eq_zero.mp (by omega)
      cases herr : s.err with
      | none => rw [herr] at hplan; simp [hnil, ih cs hplan]
      | some e =>
        cases e with
        | eof => rw [herr] at hplan; cases hplan; simp [hnil]
        | other m => rw [herr] at hplan; cases hplan

theorem loopPlan_ok_mem :
    ∀ (steps : List ReadStep) (cs : List (List Nat)),
      loopPlan steps = .ok cs → ∀ c ∈ cs, ∃ s ∈ steps, c = s.data := by
  intro steps
  induction steps with
  | nil =>
    intro cs hplan
    simp only [loopPlan] at hplan
    cases hplan
    simp
  | cons s rest ih =>
    intro cs hplan c hc
    simp only [loopPlan] at hplan
    by_cases hd : s.data.length > 0
    · rw [if_pos hd] at hplan
      cases herr : s.err with
      | none =>
        rw [herr] at hplan
        cases hrest : loopPlan rest with
        | ok cs2 =>
          rw [hrest] at hplan
          cases hplan
          rcases List.mem_cons.mp hc with h | h
          · exact ⟨s, List.mem_cons_self _ _, h⟩
          · obtain ⟨t, ht, hct⟩ := ih cs2 hrest c h
            exact ⟨t, List.mem_cons_of_mem _ ht, hct⟩
        | readErr m => rw [hrest] at hplan; cases hplan
      | some e =>
        cases e with
        | eof =>
          rw [herr] at hplan
          cases hplan
          rcases List.mem_cons.mp hc with h | h
          · exact ⟨s, List.mem_cons_self _ _, h⟩
          · simp at h
        | other m => rw [herr] at hplan; cases hplan
    · rw [if_neg hd] at hplan
      cases herr : s.err with
      | none =>
        rw [herr] at hplan
        obtain ⟨t, ht, hct⟩ := ih cs hplan c hc
        exact ⟨t, List.mem_cons_of_mem _ ht, hct⟩
      | some e =>
        cases e with
        | eof => rw [herr] at hplan; cases hplan; simp at hc
        | other m => rw [herr] at hplan; cases hplan

theorem putBlock_chunk_origin (b : BlobBehavior) :
    ∀ (steps : List ReadStep) (acc : List Str) (id : Str) (ch : List Nat),
      BlobCall.putBlock id ch ∈ (putObjectLoop b steps acc).calls →
      ∃ s ∈ steps, ch = s.data := by
  intro steps
  induction steps with
  | nil =>
    intro acc id ch hmem
    simp only [putObjectLoop, commitBlockList] at hmem
    cases hres : b.putBlockListResult acc <;> rw [hres] at hmem <;> simp at hmem
  | cons s rest ih =>
    intro acc id ch hmem
    simp only [putObjectLoop] at hmem
    by_cases hd : s.data.length > 0
    · rw [if_pos hd] at hmem
      cases hpb : b.putBlockResult (blockID acc.length) s.data with
      | some e =>
        rw [hpb] at hmem
        simp at hmem
        exact ⟨s, List.mem_cons_self _ _, hmem.2⟩
      | none =>
        rw [hpb] at hmem
        simp only [List.mem_cons] at hmem
        rcases hmem with h | h
        · cases h
          exact ⟨s, List.mem_cons_self _ _, rfl⟩
        · cases herr : s.err with
          | none =>
            rw [herr] at h
            obtain ⟨t, ht, hct⟩ := ih _ id ch h
            exact ⟨t, List.mem_cons_of_mem _ ht, hct⟩
          | some e =>
            cases e with
            | eof =>
              rw [herr] at h
              simp only [commitBlockList] at h
              cases hres : b.putBlockListResult (acc ++ [blockID acc.length]) <;>
                rw [hres] at h <;> simp at h
            | other m => rw [herr] at h; simp at h
    · rw [if_neg hd] at hmem
      cases herr : s.err with
      | none =>
        rw [herr] at hmem
        obtain ⟨t, ht, hct⟩ := ih _ id ch hmem
        exact ⟨t, List.mem_cons_of_mem _ ht, hct⟩
      | some e =>
        cases e with
        | eof =>
          rw [herr] at hmem
          simp only [commitBlockList] at hmem
          cases hres : b.putBlockListResult acc <;> rw [hres] at hmem <;> simp at hmem
        | other m => rw [herr] at hmem; simp at hmem

/-! ## PutObject: commit discipline -/

theorem putObjectLoop_shape (b : BlobBehavior) :
    ∀ (steps : List ReadStep) (acc : List Str),
      (∃ pbs ids, (∀ c ∈ pbs, c.isCommit = false) ∧
        (putObjectLoop b steps acc).calls = pbs ++ [BlobCall.putBlockList ids] ∧
        ((putObjectLoop b steps acc).err = none ↔ b.putBlockListResult ids = none))
      ∨ (∃ pbs, (∀ c ∈ pbs, c.isCommit = false) ∧
        (putObjectLoop b steps acc).calls = pbs ∧
        (putObjectLoop b steps acc).err ≠ none) := by
  intro steps
  induction steps with
  | nil =>
    intro acc
    left
    refine ⟨[], acc, by simp, ?_, ?_⟩ <;>
      simp only [putObjectLoop, commitBlockList] <;>
      cases hres : b.putBlockListResult acc <;> simp [hres]
  | cons s rest ih =>
    intro acc
    simp only [putObjectLoop]
    by_cases hd : s.data.length > 0
    · rw [if_pos hd]
      cases hpb : b.putBlockResult (blockID acc.length) s.data with
      | some e =>
        right
        exact ⟨[.putBlock (blockID acc.length) s.data], by simp [BlobCall.isCommit],
          rfl, by simp⟩
      | none =>
        cases herr : s.err with
        | none =>
          rcases ih (acc ++ [blockID acc.length]) with ⟨pbs, ids, hnc, hcalls, hiff⟩ |
            ⟨pbs, hnc, hcalls, herr2⟩
          · left
            refine ⟨.putBlock (blockID acc.length) s.data :: pbs, ids, ?_, ?_, ?_⟩
            · intro c hc
              rcases List.mem_cons.mp hc with h | h
              · cases h; rfl
              · exact hnc c h
            · simp [hcalls]
            · simpa using hiff
          · right
            refine ⟨.putBlock (blockID acc.length) s.data :: pbs, ?_, ?_, ?_⟩
            · intro c hc
              rcases List.mem_cons.mp hc with h | h
              · cases h; rfl
              · exact hnc c h
            · simp [hcalls]
            · simpa using herr2
        | some e =>
          cases e with
          | eof =>
            left
            refine ⟨[.putBlock (blockID acc.length) s.data], acc ++ [blockID acc.length],
              by simp [BlobCall.isCommit], ?_, ?_⟩ <;>
              simp only [commitBlockList] <;>
              cases hres : b.putBlockListResult (acc ++ [blockID acc.length]) <;>
                simp [hres]
          | other m =>
            right
            exact ⟨[.putBlock (blockID acc.length) s.data], by simp [BlobCall.isCommit],
              rfl, by simp⟩
    · rw [if_neg hd]
      cases herr : s.err with
      | none => exact ih acc
      | some e =>
        cases e with
        | eof =>
          left
          refine ⟨[], acc, by simp, ?_, ?_⟩ <;>
            simp only [commitBlockList] <;>
            cases hres : b.putBlockListResult acc <;> simp [hres]
        | other m =>
          right
          exact ⟨[], by simp, rfl, by simp⟩

theorem putObjectLoop_readErr (b : BlobBehavior) :
    ∀ (steps : List ReadStep) (acc : List Str) (m : Str),
      loopPlan steps = .readErr m →
      (putObjectLoop b steps acc).err ≠ none ∧
        ∀ c ∈ (putObjectLoop b steps acc).calls, c.isCommit = false := by
  intro steps
  induction steps with
  | nil =>
    intro acc m hplan
    simp only [loopPlan] at hplan
    cases hplan
  | cons s rest ih =>
    intro acc m hplan
    simp only [loopPlan] at hplan
    simp only [putObjectLoop]
    by_cases hd : s.data.length > 0
    · rw [if_pos hd] at hplan ⊢
      cases hpb : b.putBlockResult (blockID acc.length) s.data with
      | some e =>
        constructor
        · simp
        · intro c hc
          simp at hc
          simp [hc, BlobCall.isCommit]
      | none =>
        cases herr : s.err with
        | none =>
          simp only [herr] at hplan
          dsimp only
          cases hrest : loopPlan rest with
          | ok cs2 => simp only [hrest] at hplan; cases hplan
          | readErr m2 =>
            simp only [hrest] at hplan
            cases hplan
            obtain ⟨h1, h2⟩ := ih (acc ++ [blockID acc.length]) m hrest
            refine ⟨by simpa using h1, ?_⟩
            intro c hc
            rcases List.mem_cons.mp hc with h | h
            · cases h; rfl
            · exact h2 c h
        | some e =>
          cases e with
          | eof => simp only [herr] at hplan; cases hplan
          | other m2 =>
            simp only [herr] at hplan
            cases hplan
            dsimp only
            refine ⟨by simp, ?_⟩
            intro c hc
            simp at hc
            simp [hc, BlobCall.isCommit]
    · rw [if_neg hd] at hplan ⊢
      cases herr : s.err with
      | none =>
        simp only [herr] at hplan
        dsimp only
        exact ih acc m hplan
      | some e =>
        cases e with
        | eof => simp only [herr] at hplan; cases hplan
        | other m2 =>
          simp only [herr] at hplan
          cases hplan
          dsimp only
          exact ⟨by simp, by simp⟩

theorem putObjectLoop_stageFail (b : BlobBehavior) :
    ∀ (steps : List ReadStep) (acc : List Str),
      (∃ id ch, BlobCall.putBlock id ch ∈ (putObjectLoop b steps acc).calls ∧
        b.putBlockResult id ch ≠ none) →
      (putObjectLoop b steps acc).err ≠ none ∧
        ∀ c ∈ (putObjectLoop b steps acc).calls, c.isCommit = false := by
  intro steps
  induction steps with
  | nil =>
    intro acc ⟨id, ch, hmem, _⟩
    simp only [putObjectLoop, commitBlockList] at hmem
    cases hres : b.putBlockListResult acc <;> rw [hres] at hmem <;> simp at hmem
  | cons s rest ih =>
    intro acc hyp
    simp only [putObjectLoop] at hyp ⊢
    by_cases hd : s.data.length > 0
    · rw [if_pos hd] at hyp ⊢
      cases hpb : b.putBlockResult (blockID acc.length) s.data with
      | some e =>
        refine ⟨by simp, ?_⟩
        intro c hc
        simp at hc
        simp [hc, BlobCall.isCommit]
      | none =>
        rw [hpb] at hyp
        obtain ⟨id, ch, hmem, hfail⟩ := hyp
        rcases List.mem_cons.mp hmem with h | h
        · cases h
          exact absurd hpb hfail
        · cases herr : s.err with
          | none =>
            simp only [herr] at h
            dsimp only
            obtain ⟨h1, h2⟩ := ih (acc ++ [blockID acc.length]) ⟨id, ch, h, hfail⟩
            refine ⟨by simpa using h1, ?_⟩
            intro c hc
            rcases List.mem_cons.mp hc with hh | hh
            · cases hh; rfl
            · exact h2 c hh
          | some e =>
            cases e with
            | eof =>
              simp only [herr, commitBlockList] at h
              cases hres : b.putBlockListResult (acc ++ [blockID acc.length]) <;>
                rw [hres] at h <;> simp at h
            | other m =>
              simp only [herr] at h
              simp at h
    · rw [if_neg hd] at hyp ⊢
      cases herr : s.err with
      | none =>
        simp only [herr] at hyp
        dsimp only
        exact ih acc hyp
      | some e =>
        cases e with
        | eof =>
          simp only [herr] at hyp
          obtain ⟨id, ch, hmem, _⟩ := hyp
          simp only [commitBlockList] at hmem
          cases hres : b.putBlockListResult acc <;> rw [hres] at hmem <;> simp at hmem
        | other m =>
          dsimp only
          exact ⟨by simp, by simp⟩

theorem natDigitsAux_length_le :
    ∀ (fuel n k : Nat), n < 10 ^ k → 1 ≤ k → n < fuel →
      (natDigitsAux fuel n).length ≤ k := by
  intro fuel
  induction fuel with
  | zero => intro n k _ _ h; omega
  | succ fuel ih =>
    intro n k hk hk1 hfuel
    simp only [natDigitsAux]
    by_cases h10 : n < 10
    · rw [if_pos h10]
      simpa using hk1
    · rw [if_neg h10]
      have hk2 : 2 ≤ k := by
        by_contra hcon
        have hk1' : k = 1 := by omega
        subst hk1'
        simp at hk
        omega
      have hdiv : n / 10 < 10 ^ (k - 1) := by
        have : 10 ^ k = 10 ^ (k - 1) * 10 := by
          rw [← pow_succ]
          congr 1
          omega
        rw [Nat.div_lt_iff_lt_mul (by omega)]
        omega
      have hlt : n / 10 < fuel := by
        have : n / 10 < n := Nat.div_lt_self (by omega) (by omega)
        omega
      have := ih (n / 10) (k - 1) hdiv (by omega) hlt
      simp only [List.length_append, List.length_cons, List.length_nil]
      omega

theorem blockID_length : ∀ i < 100000000, (blockID i).length = 8 := by
  intro i hi
  have hlen : (natDigits i).length ≤ 8 :=
    natDigitsAux_length_le (i + 1) i 8 (by norm_num; omega) (by norm_num) (by omega)
  simp only [blockID, List.length_append, List.length_replicate]
  omega

/-- C1: on the success path, `PutObject` stages the body as the sequence
of chunks the reader delivers, each of at most the buffer size `B`, with
block IDs that are the fixed-width 8-digit decimal encodings of
`0, 1, 2, ...` in staging order; the staged chunks concatenate to exactly
the bytes read from the body, and a single final `PutBlockList` is issued
with exactly the staged block IDs in order. -/
theorem putObject_chunked_upload (b : BlobBehavior) (steps : List ReadStep)
    (B : Nat) (cs : List (List Nat))
    (hB : ∀ s ∈ steps, s.data.length ≤ B)
    (hplan : loopPlan steps = .ok cs)
    (hpb : ∀ id c, b.putBlockResult id c = none)
    (hpbl : ∀ ids, b.putBlockListResult ids = none) :
    putObject b steps =
      ⟨stagedCallsFrom 0 cs ++ [.putBlockList (idsFrom 0 cs.length)], none⟩
    ∧ cs.flatten = bytesRead steps
    ∧ (∀ c ∈ cs, c.length ≤ B)
    ∧ (∀ i < 100000000, (blockID i).length = 8) := by
  refine ⟨?_, loopPlan_ok_join steps cs hplan, ?_, blockID_length⟩
  · have h := putObjectLoop_ok b hpb hpbl steps [] cs hplan
    simpa [putObject] using h
  · intro c hc
    obtain ⟨s, hs, rfl⟩ := loopPlan_ok_mem steps cs hplan c hc
    exact hB s hs

theorem putObject_chunked_upload_witness :
    putObject ⟨fun _ _ => none, fun _ => none⟩
        [⟨[1, 2], none⟩, ⟨[3], some .eof⟩] =
      ⟨stagedCallsFrom 0 [[1, 2], [3]]
        ++ [.putBlockList (idsFrom 0 (List.length [[1, 2], [3]]))], none⟩
    ∧ List.flatten [[1, 2], [3]] = bytesRead [⟨[1, 2], none⟩, ⟨[3], some .eof⟩]
    ∧ (∀ c ∈ [[1, 2], [3]], List.length c ≤ 2)
    ∧ (∀ i < 100000000, (blockID i).length = 8) :=
  putObject_chunked_upload ⟨fun _ _ => none, fun _ => none⟩
    [⟨[1, 2], none⟩, ⟨[3], some .eof⟩] 2 [[1, 2], [3]]
    (by decide) (by decide) (fun _ _ => rfl) (fun _ => rfl)

/-- C2: `getBlockSize` always lands in `[1, 104857600]`; it returns the
default 1048576 when the `blockSizeInBytes` key is absent, fails to
parse, or parses to a value `≤ 0`; it is capped at the maximum 104857600;
otherwise it returns the parsed value — and the configured block size
bounds the length of every chunk `PutObject` stages (chunks are reads
into the `blockSize`-byte buffer). -/
theorem getBlockSize_spec (config : Config) :
    1 ≤ getBlockSize config ∧ getBlockSize config ≤ maxBlockSize
    ∧ defaultBlockSize = 1048576 ∧ maxBlockSize = 104857600
    ∧ (config.lookup blockSizeConfigKey = none →
        getBlockSize config = defaultBlockSize)
    ∧ (∀ v, config.lookup blockSizeConfigKey = some v → atoi v = none →
        getBlockSize config = defaultBlockSize)
    ∧ (∀ v n, config.lookup blockSizeConfigKey = some v → atoi v = some n →
        n ≤ 0 → getBlockSize config = defaultBlockSize)
    ∧ (∀ v n, config.lookup blockSizeConfigKey = some v → atoi v = some n →
        maxBlockSize < n → getBlockSize config = maxBlockSize)
    ∧ (∀ v n, config.lookup blockSizeConfigKey = some v → atoi v = some n →
        0 < n → n ≤ maxBlockSize → getBlockSize config = n)
    ∧ (∀ (b : BlobBehavior) (steps : List ReadStep) (id : Str) (ch : List Nat),
        (∀ s ∈ steps, (s.data.length : Int) ≤ getBlockSize config) →
        BlobCall.putBlock id ch ∈ (putObject b steps).calls →
        (ch.length : Int) ≤ getBlockSize config) := by
  have hrange : 1 ≤ getBlockSize config ∧ getBlockSize config ≤ maxBlockSize := by
    unfold getBlockSize
    cases h : config.lookup blockSizeConfigKey with
    | none => constructor <;> decide
    | some v =>
      dsimp only
      cases ha : atoi v with
      | none => constructor <;> decide
      | some n =>
        dsimp only
        by_cases h1 : n ≤ 0
        · rw [if_pos h1]; constructor <;> decide
        · rw [if_neg h1]
          by_cases h2 : maxBlockSize < n
          · rw [if_pos h2]; constructor <;> decide
          · rw [if_neg h2]
            constructor <;> omega
  refine ⟨hrange.1, hrange.2, by decide, by decide, ?_, ?_, ?_, ?_, ?_, ?_⟩
  · intro h; simp [getBlockSize, h]
  · intro v hv ha; simp [getBlockSize, hv, ha]
  · intro v n hv ha hn
    simp only [getBlockSize, hv, ha]
    rw [if_pos hn]
  · intro v n hv ha hn
    simp only [getBlockSize, hv, ha]
    rw [if_neg (by omega), if_pos hn]
  · intro v n hv ha hn1 hn2
    simp only [getBlockSize, hv, ha]
    rw [if_neg (by omega), if_neg (by omega)]
  · intro b steps id ch hsize hmem
    obtain ⟨s, hs, rfl⟩ := putBlock_chunk_origin b steps [] id ch hmem
    exact hsize s hs

theorem getBlockSize_spec_witness :
    1 ≤ getBlockSize [("blockSizeInBytes", "5")]
    ∧ getBlockSize [("blockSizeInBytes", "5")] ≤ maxBlockSize
    ∧ defaultBlockSize = 1048576 ∧ maxBlockSize = 104857600
    ∧ (List.lookup blockSizeConfigKey [("blockSizeInBytes", "5")] = none →
        getBlockSize [("blockSizeInBytes", "5")] = defaultBlockSize)
    ∧ (∀ v, List.lookup blockSizeConfigKey [("blockSizeInBytes", "5")] = some v →
        atoi v = none → getBlockSize [("blockSizeInBytes", "5")] = defaultBlockSize)
    ∧ (∀ v n, List.lookup blockSizeConfigKey [("blockSizeInBytes", "5")] = some v →
        atoi v = some n → n ≤ 0 →
        getBlockSize [("blockSizeInBytes", "5")] = defaultBlockSize)
    ∧ (∀ v n, List.lookup blockSizeConfigKey [("blockSizeInBytes", "5")] = some v →
        atoi v = some n → maxBlockSize < n →
        getBlockSize [("blockSizeInBytes", "5")] = maxBlockSize)
    ∧ (∀ v n, List.lookup blockSizeConfigKey [("blockSizeInBytes", "5")] = some v →
        atoi v = some n → 0 < n → n ≤ maxBlockSize →
        getBlockSize [("blockSizeInBytes", "5")] = n)
    ∧ (∀ (b : BlobBehavior) (steps : List ReadStep) (id : Str) (ch : List Nat),
        (∀ s ∈ steps, (s.data.length : Int) ≤ getBlockSize [("blockSizeInBytes", "5")]) →
        BlobCall.putBlock id ch ∈ (putObject b steps).calls →
        (ch.length : Int) ≤ getBlockSize [("blockSizeInBytes", "5")]) :=
  getBlockSize_spec [("blockSizeInBytes", "5")]

/-- C3: `PutObject` issues the commit at most once and only as its last
call; a non-error return implies the commit was issued and succeeded; a
non-EOF read error or a failing `PutBlock` makes `PutObject` return an
error without ever calling `PutBlockList`. -/
theorem putObject_commit_discipline (b : BlobBehavior) (steps : List ReadStep) :
    ((putObject b steps).calls.filter BlobCall.isCommit).length ≤ 1
    ∧ (∀ c ∈ (putObject b steps).calls.dropLast, c.isCommit = false)
    ∧ ((putObject b steps).err = none →
        ∃ ids, (putObject b steps).calls.getLast? = some (.putBlockList ids) ∧
          b.putBlockListResult ids = none)
    ∧ (∀ m, loopPlan steps = .readErr m →
        (putObject b steps).err ≠ none ∧
          ∀ c ∈ (putObject b steps).calls, c.isCommit = false)
    ∧ ((∃ id ch, BlobCall.putBlock id ch ∈ (putObject b steps).calls ∧
          b.putBlockResult id ch ≠ none) →
        (putObject b steps).err ≠ none ∧
          ∀ c ∈ (putObject b steps).calls, c.isCommit = false) := by
  refine ⟨?_, ?_, ?_, fun m h => putObjectLoop_readErr b steps [] m h,
    fun h => putObjectLoop_stageFail b steps [] h⟩ <;>
    rcases putObjectLoop_shape b steps [] with ⟨pbs, ids, hnc, hcalls, hiff⟩ |
      ⟨pbs, hnc, hcalls, herr⟩
  · have hfil : pbs.filter BlobCall.isCommit = [] :=
      List.filter_eq_nil_iff.mpr (fun c hc => by simp [hnc c hc])
    simp only [putObject] at *
    rw [hcalls, List.filter_append, hfil]
    simp [BlobCall.isCommit]
  · have hfil : pbs.filter BlobCall.isCommit = [] :=
      List.filter_eq_nil_iff.mpr (fun c hc => by simp [hnc c hc])
    simp only [putObject] at *
    rw [hcalls, hfil]
    simp
  · intro c hc
    simp only [putObject] at *
    rw [hcalls, List.dropLast_concat] at hc
    exact hnc c hc
  · intro c hc
    simp only [putObject] at *
    rw [hcalls] at hc
    exact hnc c ((List.dropLast_sublist pbs).mem hc)
  · intro h
    simp only [putObject] at *
    refine ⟨ids, ?_, hiff.mp h⟩
    rw [hcalls, List.getLast?_concat]
  · intro h
    simp only [putObject] at *
    exact absurd h herr

theorem putObject_commit_discipline_witness :
    ((putObject ⟨fun _ _ => none, fun _ => none⟩ []).calls.filter
        BlobCall.isCommit).length ≤ 1
    ∧ (∀ c ∈ (putObject ⟨fun _ _ => none, fun _ => none⟩ []).calls.dropLast,
        c.isCommit = false)
    ∧ ((putObject ⟨fun _ _ => none, fun _ => none⟩ []).err = none →
        ∃ ids, (putObject ⟨fun _ _ => none, fun _ => none⟩ []).calls.getLast? =
            some (.putBlockList ids) ∧
          (fun (_ : List Str) => (none : Option Str)) ids = none)
    ∧ (∀ m, loopPlan [] = .readErr m →
        (putObject ⟨fun _ _ => none, fun _ => none⟩ []).err ≠ none ∧
          ∀ c ∈ (putObject ⟨fun _ _ => none, fun _ => none⟩ []).calls,
            c.isCommit = false)
    ∧ ((∃ id ch, BlobCall.putBlock id ch ∈
          (putObject ⟨fun _ _ => none, fun _ => none⟩ []).calls ∧
          (fun (_ : Str) (_ : List Nat) => (none : Option Str)) id ch ≠ none) →
        (putObject ⟨fun _ _ => none, fun _ => none⟩ []).err ≠ none ∧
          ∀ c ∈ (putObject ⟨fun _ _ => none, fun _ => none⟩ []).calls,
            c.isCommit = false) :=
  putObject_commit_discipline ⟨fun _ _ => none, fun _ => none⟩ []

/-- C4 counterexample: with no explicit storage-account key, `useAAD`
unset, and full service-principal client-secret credentials present in
the environment, `Init` resolves to the key-listing API call, while the
claimed strict order would resolve to the service-principal secret
credential: the key-listing path is gated on the `useAAD` flag, not tried
only after the token credentials fail. -/
theorem credResolution_differs_from_spec_order :
    initCredResolution [("storageAccount", "sa")]
        [("AZURE_TENANT_ID", "t"), ("AZURE_CLIENT_ID", "c"),
         ("AZURE_CLIENT_SECRET", "s")] = .listKeys
    ∧ specCredResolution [("storageAccount", "sa")]
        [("AZURE_TENANT_ID", "t"), ("AZURE_CLIENT_ID", "c"),
         ("AZURE_CLIENT_SECRET", "s")] = .aad .spSecret
    ∧ initCredResolution [("storageAccount", "sa")]
        [("AZURE_TENANT_ID", "t"), ("AZURE_CLIENT_ID", "c"),
         ("AZURE_CLIENT_SECRET", "s")] ≠
      specCredResolution [("storageAccount", "sa")]
        [("AZURE_TENANT_ID", "t"), ("AZURE_CLIENT_ID", "c"),
         ("AZURE_CLIENT_SECRET", "s")] := by
  refine ⟨by decide, by decide, by decide⟩

/-- C4 (amended): an explicitly referenced storage-account key
short-circuits everything else; otherwise, when `useAAD` lower-cases to
`"true"`, the AAD default credential chain is used (service-principal
secret, then certificate, then workload identity, then the rest of the
chain); otherwise `Init` always falls back to the key-listing API call,
regardless of which token credentials are available. -/
theorem initCredResolution_order (config env : Config) :
    (getStorageAccountKey config env ≠ "" →
      initCredResolution config env = .explicitKey)
    ∧ (getStorageAccountKey config env = "" →
        strToLower (cfgGet config useAADConfigKey) = "true" →
        initCredResolution config env = .aad (defaultAzureCredentialChain env))
    ∧ (getStorageAccountKey config env = "" →
        strToLower (cfgGet config useAADConfigKey) ≠ "true" →
        initCredResolution config env = .listKeys)
    ∧ (spSecretAvailable env = true → defaultAzureCredentialChain env = .spSecret)
    ∧ (spSecretAvailable env = false → spCertAvailable env = true →
        defaultAzureCredentialChain env = .spCert)
    ∧ (spSecretAvailable env = false → spCertAvailable env = false →
        workloadIdentityAvailable env = true →
        defaultAzureCredentialChain env = .workloadIdentity)
    ∧ (spSecretAvailable env = false → spCertAvailable env = false →
        workloadIdentityAvailable env = false →
        defaultAzureCredentialChain env = .restOfChain) := by
  refine ⟨?_, ?_, ?_, ?_, ?_, ?_, ?_⟩
  · intro h
    simp [initCredResolution, getServiceClientMechanism, h]
  · intro h1 h2
    simp [initCredResolution, getServiceClientMechanism, h1, h2]
  · intro h1 h2
    simp [initCredResolution, getServiceClientMechanism, h1, h2]
  · intro h
    simp [defaultAzureCredentialChain, h]
  · intro h1 h2
    simp [defaultAzureCredentialChain, h1, h2]
  · intro h1 h2 h3
    simp [defaultAzureCredentialChain, h1, h2, h3]
  · intro h1 h2 h3
    simp [defaultAzureCredentialChain, h1, h2, h3]

theorem initCredResolution_order_witness :
    (getStorageAccountKey [("storageAccountKeyEnvVar", "KEYVAR")] [("KEYVAR", "k")] ≠ "" →
      initCredResolution [("storageAccountKeyEnvVar", "KEYVAR")] [("KEYVAR", "k")] =
        .explicitKey)
    ∧ (getStorageAccountKey [("storageAccountKeyEnvVar", "KEYVAR")] [("KEYVAR", "k")] = "" →
        strToLower (cfgGet [("storageAccountKeyEnvVar", "KEYVAR")] useAADConfigKey) =
          "true" →
        initCredResolution [("storageAccountKeyEnvVar", "KEYVAR")] [("KEYVAR", "k")] =
          .aad (defaultAzureCredentialChain [("KEYVAR", "k")]))
    ∧ (getStorageAccountKey [("storageAccountKeyEnvVar", "KEYVAR")] [("KEYVAR", "k")] = "" →
        strToLower (cfgGet [("storageAccountKeyEnvVar", "KEYVAR")] useAADConfigKey) ≠
          "true" →
        initCredResolution [("storageAccountKeyEnvVar", "KEYVAR")] [("KEYVAR", "k")] =
          .listKeys)
    ∧ (spSecretAvailable [("KEYVAR", "k")] = true →
        defaultAzureCredentialChain [("KEYVAR", "k")] = .spSecret)
    ∧ (spSecretAvailable [("KEYVAR", "k")] = false →
        spCertAvailable [("KEYVAR", "k")] = true →
        defaultAzureCredentialChain [("KEYVAR", "k")] = .spCert)
    ∧ (spSecretAvailable [("KEYVAR", "k")] = false →
        spCertAvailable [("KEYVAR", "k")] = false →
        workloadIdentityAvailable [("KEYVAR", "k")] = true →
        defaultAzureCredentialChain [("KEYVAR", "k")] = .workloadIdentity)
    ∧ (spSecretAvailable [("KEYVAR", "k")] = false →
        spCertAvailable [("KEYVAR", "k")] = false →
        workloadIdentityAvailable [("KEYVAR", "k")] = false →
        defaultAzureCredentialChain [("KEYVAR", "k")] = .restOfChain) :=
  initCredResolution_order [("storageAccountKeyEnvVar", "KEYVAR")] [("KEYVAR", "k")]

/-- C5: a config with any key outside the allow-list makes `Init` fail
up front: both plugins return the validation error and leave the receiver
exactly as it was (no client fields are set). -/
theorem init_rejects_unknown_keys :
    (∀ (config : Config) (o : ObjectStore) (nsc : Except String StorageClientOutcome),
      (∃ kv ∈ config, ¬ objectStoreAllowList.contains kv.1) →
      objectStoreInit o config nsc = (o, some "config has invalid keys"))
    ∧ (∀ (config : Config) (b : VolumeSnapshotter)
        (rest : VolumeSnapshotter × Option String),
      (∃ kv ∈ config, ¬ snapshotterAllowList.contains kv.1) →
      volumeSnapshotterInit b config rest = (b, some "config has invalid keys")) := by
  constructor
  · intro config o nsc ⟨kv, hkv, hmem⟩
    have hv : validateConfigKeys config objectStoreAllowList = false := by
      cases hv : validateConfigKeys config objectStoreAllowList
      · rfl
      · exact absurd (by simpa using List.all_eq_true.mp hv kv hkv) hmem
    simp [objectStoreInit, hv]
  · intro config b rest ⟨kv, hkv, hmem⟩
    have hv : validateConfigKeys config snapshotterAllowList = false := by
      cases hv : validateConfigKeys config snapshotterAllowList
      · rfl
      · exact absurd (by simpa using List.all_eq_true.mp hv kv hkv) hmem
    simp [volumeSnapshotterInit, hv]

theorem init_rejects_unknown_keys_witness :
    objectStoreInit ⟨none, none, 0, none⟩ [("bogus", "1")] (.error "e") =
      (⟨none, none, 0, none⟩, some "config has invalid keys")
    ∧ volumeSnapshotterInit ⟨none, none, [], [], [], [], none, 0, []⟩
        [("bogus", "1")] (⟨some ⟨1⟩, none, [], [], [], [], none, 0, []⟩, none) =
      (⟨none, none, [], [], [], [], none, 0, []⟩, some "config has invalid keys") :=
  ⟨init_rejects_unknown_keys.1 [("bogus", "1")] ⟨none, none, 0, none⟩ (.error "e")
      ⟨("bogus", "1"), by decide, by decide⟩,
   init_rejects_unknown_keys.2 [("bogus", "1")] ⟨none, none, [], [], [], [], none, 0, []⟩
      (⟨some ⟨1⟩, none, [], [], [], [], none, 0, []⟩, none)
      ⟨("bogus", "1"), by decide, by decide⟩⟩

/-- C6: the two plugin types provide exactly the host contract
operations with the embedded signatures: the `ObjectStoreAPI` and
`VolumeSnapshotterAPI` records are inhabited by the implementations, one
field per contract operation, and each field is the corresponding
operation of this development. -/
theorem plugin_contract_implemented :
    (objectStoreImpl.init = objectStoreInit
      ∧ objectStoreImpl.putObject = putObjectOp
      ∧ objectStoreImpl.getObject = getObjectOp
      ∧ objectStoreImpl.objectExists = objectExistsOp
      ∧ objectStoreImpl.deleteObject = deleteObjectOp
      ∧ objectStoreImpl.listObjects = listObjectsOp
      ∧ objectStoreImpl.listCommonPrefixes = listCommonPrefixesOp
      ∧ objectStoreImpl.createSignedURL = createSignedURLOp)
    ∧ (volumeSnapshotterImpl.init = volumeSnapshotterInit
      ∧ volumeSnapshotterImpl.createSnapshot = createSnapshotOp
      ∧ volumeSnapshotterImpl.deleteSnapshot = deleteSnapshotOp
      ∧ volumeSnapshotterImpl.createVolumeFromSnapshot = createVolumeFromSnapshotOp
      ∧ volumeSnapshotterImpl.getVolumeInfo = getVolumeInfoOp
      ∧ volumeSnapshotterImpl.getVolumeID = getVolumeIDOp
      ∧ volumeSnapshotterImpl.setVolumeID = setVolumeIDOp) :=
  ⟨⟨rfl, rfl, rfl, rfl, rfl, rfl, rfl, rfl⟩, ⟨rfl, rfl, rfl, rfl, rfl, rfl, rfl⟩⟩

/-- C7: after `Init`, no object-store operation changes the receiver:
every operation returns the `ObjectStore` state it was given, so the
fields `containerGetter`, `blobGetter`, `blockSize` and
`sharedKeyCredential` are only ever written by `Init`, and no operation
caches anything a later operation could read. -/
theorem objectStore_ops_leave_state_unchanged (o : ObjectStore)
    (bucket key pre delimiter : String) (bb : BlobBehavior) (steps : List ReadStep)
    (props : Option AzError) (download : Except String Nat) (delete : Option String)
    (pages : List (Except String (List String))) (ttl : Nat)
    (sas : Except String String) :
    (putObjectOp o bucket key bb steps).2 = o
    ∧ (getObjectOp o bucket key download).2 = o
    ∧ (objectExistsOp o bucket key props).2 = o
    ∧ (deleteObjectOp o bucket key delete).2 = o
    ∧ (listObjectsOp o bucket pre pages).2 = o
    ∧ (listCommonPrefixesOp o bucket pre delimiter pages).2 = o
    ∧ (createSignedURLOp o bucket key ttl sas).2 = o := by
  refine ⟨rfl, rfl, ?_, rfl, rfl, rfl, rfl⟩
  unfold objectExistsOp
  rcases blobExists props with ⟨ex, _ | e⟩ <;> rfl

/-- C8: `ObjectExists` reports `(true, nil)` when the properties fetch
succeeds, `(false, nil)` — not an error — for the `ContainerNotFound` and
`BlobNotFound` error codes, and `(false, err)` with a non-nil error for
every other failure. -/
theorem objectExists_classification (o : ObjectStore) (bucket key : String)
    (e : AzError) :
    (objectExistsOp o bucket key none).1 = (true, none)
    ∧ (objectExistsOp o bucket key (some ⟨some "ContainerNotFound"⟩)).1 = (false, none)
    ∧ (objectExistsOp o bucket key (some ⟨some "BlobNotFound"⟩)).1 = (false, none)
    ∧ (e.code ≠ some "ContainerNotFound" → e.code ≠ some "BlobNotFound" →
        (objectExistsOp o bucket key (some e)).1 = (false, some e)) := by
  refine ⟨rfl, rfl, rfl, ?_⟩
  intro h1 h2
  simp [objectExistsOp, blobExists, h1, h2]

theorem objectExists_classification_witness :
    (objectExistsOp ⟨none, none, 0, none⟩ "b" "k" none).1 = (true, none)
    ∧ (objectExistsOp ⟨none, none, 0, none⟩ "b" "k"
        (some ⟨some "ContainerNotFound"⟩)).1 = (false, none)
    ∧ (objectExistsOp ⟨none, none, 0, none⟩ "b" "k"
        (some ⟨some "BlobNotFound"⟩)).1 = (false, none)
    ∧ ((⟨some "Boom"⟩ : AzError).code ≠ some "ContainerNotFound" →
        (⟨some "Boom"⟩ : AzError).code ≠ some "BlobNotFound" →
        (objectExistsOp ⟨none, none, 0, none⟩ "b" "k" (some ⟨some "Boom"⟩)).1 =
          (false, some ⟨some "Boom"⟩)) :=
  objectExists_classification ⟨none, none, 0, none⟩ "b" "k" ⟨some "Boom"⟩

/-- C9: for a 36-character UUID, the snapshot name `CreateSnapshot`
builds is at most 80 characters long: `volumeID + "-" + uuid` when that
fits, else `volumeID` truncated to exactly `80 - 37` characters followed
by the suffix (name length exactly 80); in both cases the name ends with
the 37-character `-`+UUID suffix. -/
theorem createSnapshot_name_bounded (volumeID uid : Str) (huid : uid.length = 36) :
    (snapshotName volumeID uid).length ≤ 80
    ∧ (volumeID.length ≤ 43 → snapshotName volumeID uid = volumeID ++ '-' :: uid)
    ∧ (43 < volumeID.length →
        snapshotName volumeID uid = volumeID.take 43 ++ '-' :: uid
        ∧ (snapshotName volumeID uid).length = 80)
    ∧ ('-' :: uid).length = 37
    ∧ (∃ t, snapshotName volumeID uid = t ++ '-' :: uid) := by
  have h37 : ('-' :: uid).length = 37 := by simp [huid]
  by_cases h : volumeID.length ≤ 43
  · have heq : snapshotName volumeID uid = volumeID ++ '-' :: uid := by
      simp only [snapshotName, h37]
      rw [if_pos (by omega)]
    refine ⟨?_, fun _ => heq, fun hc => absurd h (by omega), h37, volumeID, heq⟩
    rw [heq]
    simp [huid]
    omega
  · have heq : snapshotName volumeID uid = volumeID.take 43 ++ '-' :: uid := by
      simp only [snapshotName, h37]
      rw [if_neg (by omega)]
    have hlen : (snapshotName volumeID uid).length = 80 := by
      rw [heq]
      simp [huid, List.length_take]
      omega
    exact ⟨by omega, fun hc => absurd hc h, fun _ => ⟨heq, hlen⟩, h37,
      volumeID.take 43, heq⟩

theorem createSnapshot_name_bounded_witness :
    (snapshotName (str "vol-1") (str "123e4567-e89b-12d3-a456-426614174000")).length ≤ 80
    ∧ ((str "vol-1").length ≤ 43 →
        snapshotName (str "vol-1") (str "123e4567-e89b-12d3-a456-426614174000") =
          str "vol-1" ++ '-' :: str "123e4567-e89b-12d3-a456-426614174000")
    ∧ (43 < (str "vol-1").length →
        snapshotName (str "vol-1") (str "123e4567-e89b-12d3-a456-426614174000") =
          (str "vol-1").take 43 ++ '-' :: str "123e4567-e89b-12d3-a456-426614174000"
        ∧ (snapshotName (str "vol-1")
            (str "123e4567-e89b-12d3-a456-426614174000")).length = 80)
    ∧ ('-' :: str "123e4567-e89b-12d3-a456-426614174000").length = 37
    ∧ (∃ t, snapshotName (str "vol-1") (str "123e4567-e89b-12d3-a456-426614174000") =
        t ++ '-' :: str "123e4567-e89b-12d3-a456-426614174000") :=
  createSnapshot_name_bounded (str "vol-1")
    (str "123e4567-e89b-12d3-a456-426614174000") (by decide)

/-! ## String machinery for `parseFullSnapshotName` -/

theorem isPrefixOf_iff_append :
    ∀ (p s : Str), p.isPrefixOf s = true ↔ ∃ t, s = p ++ t := by
  intro p
  induction p with
  | nil => intro s; simp [List.isPrefixOf]
  | cons a p' ih =>
    intro s
    cases s with
    | nil => simp [List.isPrefixOf]
    | cons b s' =>
      simp only [List.isPrefixOf, Bool.and_eq_true, beq_iff_eq]
      constructor
      · rintro ⟨rfl, h⟩
        obtain ⟨t, rfl⟩ := (ih s').mp h
        exact ⟨t, rfl⟩
      · rintro ⟨t, ht⟩
        rw [List.cons_append] at ht
        cases ht
        exact ⟨rfl, (ih _).mpr ⟨t, rfl⟩⟩

theorem mem_allSplits :
    ∀ (s x r : Str), (x, r) ∈ allSplits s ↔ x ++ r = s := by
  intro s
  induction s with
  | nil =>
    intro x r
    simp [allSplits, List.append_eq_nil, Prod.ext_iff]
  | cons a t ih =>
    intro x r
    simp only [allSplits, List.mem_cons, List.mem_map, Prod.mk.injEq]
    constructor
    · rintro (⟨rfl, rfl⟩ | ⟨⟨x', r'⟩, hmem, rfl, rfl⟩)
      · rfl
      · rw [List.cons_append, (ih x' r').mp hmem]
    · intro heq
      cases x with
      | nil =>
        left
        simpa using heq
      | cons b x' =>
        right
        rw [List.cons_append] at heq
        cases heq
        exact ⟨(x', r), (ih x' r).mpr rfl, rfl, rfl⟩

theorem mem_sepSplits (sep s x r : Str) :
    (x, r) ∈ sepSplits sep s ↔ s = x ++ (sep ++ r) := by
  unfold sepSplits
  rw [List.mem_filterMap]
  constructor
  · rintro ⟨⟨x', p⟩, hmem, hf⟩
    by_cases hp : sep.isPrefixOf p
    · rw [if_pos hp] at hf
      obtain ⟨t, rfl⟩ := (isPrefixOf_iff_append sep p).mp hp
      cases hf
      rw [← (mem_allSplits s x' (sep ++ t)).mp hmem, List.drop_left]
    · rw [if_neg hp] at hf
      cases hf
  · intro hs
    refine ⟨(x, sep ++ r), (mem_allSplits s x (sep ++ r)).mpr hs.symm, ?_⟩
    rw [if_pos ((isPrefixOf_iff_append sep (sep ++ r)).mpr ⟨r, rfl⟩)]
    rw [List.drop_left]

theorem matchBHead_eq_some (r : Str) (c : Char) (z : Str) :
    matchBHead r = some (c, z) ↔
      c ≠ '\n' ∧ r = str "/providers/Microsoft" ++ (c :: (str "Compute/snapshots/" ++ z)) := by
  have h20 : (str "/providers/Microsoft").length = 20 := by decide
  have h18 : (str "Compute/snapshots/").length = 18 := by decide
  unfold matchBHead
  constructor
  · intro h
    by_cases hp : (str "/providers/Microsoft").isPrefixOf r
    · rw [if_pos hp] at h
      obtain ⟨t, rfl⟩ := (isPrefixOf_iff_append _ r).mp hp
      have hdrop := List.drop_left (str "/providers/Microsoft") t
      rw [h20] at hdrop
      rw [hdrop] at h
      cases t with
      | nil => cases h
      | cons c2 r2 =>
        dsimp only at h
        by_cases hc : (c2 != '\n' && (str "Compute/snapshots/").isPrefixOf r2) = true
        · rw [if_pos hc] at h
          have hc2 := hc
          simp only [Bool.and_eq_true] at hc2
          obtain ⟨hne, hp2⟩ := hc2
          obtain ⟨u, rfl⟩ := (isPrefixOf_iff_append _ r2).mp hp2
          have hdrop2 := List.drop_left (str "Compute/snapshots/") u
          rw [h18] at hdrop2
          rw [hdrop2] at h
          cases h
          exact ⟨by simpa using hne, rfl⟩
        · rw [if_neg hc] at h
          cases h
    · rw [if_neg hp] at h
      cases h
  · rintro ⟨hne, rfl⟩
    rw [if_pos ((isPrefixOf_iff_append _ _).mpr ⟨_, rfl⟩)]
    have hdrop := List.drop_left (str "/providers/Microsoft") (c :: (str "Compute/snapshots/" ++ z))
    rw [h20] at hdrop
    rw [hdrop]
    dsimp only
    rw [if_pos (by simp [hne, (isPrefixOf_iff_append (str "Compute/snapshots/") _).mpr ⟨z, rfl⟩])]
    have hdrop2 := List.drop_left (str "Compute/snapshots/") z
    rw [h18] at hdrop2
    rw [hdrop2]

theorem mem_bSplits (s y : Str) (c : Char) (z : Str) :
    (y, c, z) ∈ bSplits s ↔ c ≠ '\n' ∧ s = y ++ (bPat c ++ z) := by
  unfold bSplits
  rw [List.mem_filterMap]
  constructor
  · rintro ⟨⟨y', p⟩, hmem, hf⟩
    cases hm : matchBHead p with
    | none => rw [hm] at hf; cases hf
    | some q =>
      obtain ⟨c2, z2⟩ := q
      rw [hm] at hf
      cases hf
      obtain ⟨hne, hfm⟩ := (matchBHead_eq_some p c z).mp hm
      subst hfm
      refine ⟨hne, ?_⟩
      have hs := (mem_allSplits s _ _).mp hmem
      rw [← hs]
      rfl
  · rintro ⟨hne, rfl⟩
    refine ⟨(y, bPat c ++ z), (mem_allSplits _ y _).mpr rfl, ?_⟩
    have : matchBHead (bPat c ++ z) = some (c, z) :=
      (matchBHead_eq_some _ c z).mpr ⟨hne, rfl⟩
    rw [this]

theorem noNL_iff (s : Str) : noNL s = true ↔ '\n' ∉ s := by
  simp only [noNL, List.all_eq_true, bne_iff_ne]
  constructor
  · intro h hmem
    exact h '\n' hmem rfl
  · intro h a ha hcon
    exact h (hcon ▸ ha)

theorem getLast?_exists {α : Type _} (l : List α) (h : l ≠ []) :
    ∃ a, l.getLast? = some a := by
  cases hl : l.getLast? with
  | none => exact absurd (List.getLast?_eq_none_iff.mp hl) h
  | some a => exact ⟨a, rfl⟩

theorem seg_inj :
    ∀ (a b r₁ r₂ : Str), '/' ∉ a → '/' ∉ b →
      a ++ ('/' :: r₁) = b ++ ('/' :: r₂) → a = b ∧ r₁ = r₂ := by
  intro a
  induction a with
  | nil =>
    intro b r₁ r₂ _ hb h
    cases b with
    | nil =>
      simp only [List.nil_append] at h
      cases h
      exact ⟨rfl, rfl⟩
    | cons e b' =>
      simp only [List.nil_append, List.cons_append] at h
      cases h
      exact absurd (List.mem_cons_self _ _) hb
  | cons d a' ih =>
    intro b r₁ r₂ ha hb h
    cases b with
    | nil =>
      simp only [List.cons_append, List.nil_append] at h
      cases h
      exact absurd (List.mem_cons_self _ _) ha
    | cons e b' =>
      simp only [List.cons_append, List.cons.injEq] at h
      obtain ⟨rfl, h2⟩ := h
      obtain ⟨rfl, hr⟩ := ih b' r₁ r₂ (fun hm => ha (List.mem_cons_of_mem _ hm))
        (fun hm => hb (List.mem_cons_of_mem _ hm)) h2
      exact ⟨rfl, hr⟩

theorem bPat_count_slash (c : Char) :
    List.count '/' (bPat c) = (if c = '/' then 1 else 0) + 4 := by
  have h1 : List.count '/' (str "/providers/Microsoft") = 2 := by decide
  have h2 : List.count '/' (str "Compute/snapshots/") = 2 := by decide
  simp only [bPat, List.count_append, List.count_cons, h1, h2]
  by_cases hc : c = '/' <;> simp [hc]

/-- The two ways of writing the snapshot resource-name tail agree: the
separator and pattern literals, spliced around the three fields, form the
slash-separated segment chain. -/
theorem snapshot_shape (u v w : Str) (c : Char) :
    u ++ (str "/resourceGroups/" ++ (v ++ (bPat c ++ w))) =
      u ++ ('/' :: (str "resourceGroups" ++ ('/' :: (v ++ ('/' :: (str "providers" ++
        ('/' :: ((str "Microsoft" ++ (c :: str "Compute")) ++ ('/' :: (str "snapshots" ++
          ('/' :: w))))))))))) := rfl

theorem snapshot_decomposition_unique
    (sub rg name x y z : Str) (c : Char)
    (hsub : '/' ∉ sub) (hrg : '/' ∉ rg) (hname : '/' ∉ name)
    (h : x ++ (str "/resourceGroups/" ++ (y ++ (bPat c ++ z))) =
         sub ++ (str "/resourceGroups/" ++ (rg ++ (bPat '.' ++ name)))) :
    x = sub ∧ y = rg ∧ z = name := by
  have hcnt := congrArg (List.count '/') h
  have hsep : List.count '/' (str "/resourceGroups/") = 2 := by decide
  simp only [List.count_append, bPat_count_slash, hsep] at hcnt
  have hsub0 : List.count '/' sub = 0 := List.count_eq_zero.mpr hsub
  have hrg0 : List.count '/' rg = 0 := List.count_eq_zero.mpr hrg
  have hname0 : List.count '/' name = 0 := List.count_eq_zero.mpr hname
  rw [hsub0, hrg0, hname0, if_neg (by decide : ¬ ('.' : Char) = '/')] at hcnt
  by_cases hc : c = '/'
  · rw [if_pos hc] at hcnt
    omega
  · rw [if_neg hc] at hcnt
    have hx : List.count '/' x = 0 := by omega
    have hy : List.count '/' y = 0 := by omega
    have hz : List.count '/' z = 0 := by omega
    have hx' : '/' ∉ x := List.count_eq_zero.mp hx
    have hy' : '/' ∉ y := List.count_eq_zero.mp hy
    have hM : '/' ∉ str "Microsoft" ++ (c :: str "Compute") := by
      intro hm
      simp only [List.mem_append, List.mem_cons] at hm
      rcases hm with hmm | hmm | hmm
      · exact absurd hmm (by decide)
      · exact hc hmm.symm
      · exact absurd hmm (by decide)
    have hM2 : '/' ∉ str "Microsoft" ++ ('.' :: str "Compute") := by decide
    rw [snapshot_shape, snapshot_shape] at h
    obtain ⟨hxe, h1⟩ := seg_inj _ _ _ _ hx' hsub h
    obtain ⟨-, h2⟩ := seg_inj _ _ _ _ (by decide) (by decide) h1
    obtain ⟨hye, h3⟩ := seg_inj _ _ _ _ hy' hrg h2
    obtain ⟨-, h4⟩ := seg_inj _ _ _ _ (by decide) (by decide) h3
    obtain ⟨-, h5⟩ := seg_inj _ _ _ _ hM hM2 h4
    obtain ⟨-, h6⟩ := seg_inj _ _ _ _ (by decide) (by decide) h5
    exact ⟨hxe, hye, h6⟩

theorem getComputeResourceName_snapshots (sub rg name : Str) :
    getComputeResourceName sub rg (str "snapshots") name =
      str "/subscriptions/" ++
        (sub ++ (str "/resourceGroups/" ++ (rg ++ (bPat '.' ++ name)))) := by
  simp only [getComputeResourceName, bPat, List.append_assoc]
  rfl

/-- C10 (amended): for subscription, resource group and snapshot name
containing neither `'/'` nor a newline, `parseFullSnapshotName` inverts
`getComputeResourceName _ _ "snapshots" _` exactly; in particular the
snapshot IDs `CreateSnapshot` returns for such components are parsed back
to their original components by `DeleteSnapshot` and
`CreateVolumeFromSnapshot`. -/
theorem parseFullSnapshotName_roundtrip (sub rg name : Str)
    (hs1 : '/' ∉ sub) (hs2 : '\n' ∉ sub) (hr1 : '/' ∉ rg) (hr2 : '\n' ∉ rg)
    (hn1 : '/' ∉ name) (hn2 : '\n' ∉ name) :
    parseFullSnapshotName (getComputeResourceName sub rg (str "snapshots") name) =
      some ⟨sub, rg, name⟩ := by
  rw [getComputeResourceName_snapshots]
  have hpre : (str "/subscriptions/").isPrefixOf
      (str "/subscriptions/" ++
        (sub ++ (str "/resourceGroups/" ++ (rg ++ (bPat '.' ++ name))))) = true :=
    (isPrefixOf_iff_append _ _).mpr ⟨_, rfl⟩
  have hdropR : (str "/subscriptions/" ++
      (sub ++ (str "/resourceGroups/" ++ (rg ++ (bPat '.' ++ name))))).drop 15 =
      sub ++ (str "/resourceGroups/" ++ (rg ++ (bPat '.' ++ name))) := by
    have hd := List.drop_left (str "/subscriptions/")
      (sub ++ (str "/resourceGroups/" ++ (rg ++ (bPat '.' ++ name))))
    rwa [(by decide : (str "/subscriptions/").length = 15)] at hd
  unfold parseFullSnapshotName
  rw [if_pos hpre, hdropR]
  have hall : ∀ el ∈ (sepSplits (str "/resourceGroups/")
      (sub ++ (str "/resourceGroups/" ++ (rg ++ (bPat '.' ++ name))))).filterMap
        parseCand, el = (⟨sub, rg, name⟩ : snapshotIdentifier) := by
    intro el hel
    obtain ⟨⟨x, r⟩, hmem, hf⟩ := List.mem_filterMap.mp hel
    unfold parseCand at hf
    by_cases hx : noNL (x, r).1
    · rw [if_pos hx] at hf
      cases hq : ((bSplits (x, r).2).filter (fun q => noNL q.1 && noNL q.2.2)).getLast? with
      | none => rw [hq] at hf; cases hf
      | some q =>
        obtain ⟨yy, cc, zz⟩ := q
        rw [hq] at hf
        cases hf
        have hqmem := List.mem_of_getLast?_eq_some hq
        obtain ⟨hqb, hqn⟩ := List.mem_filter.mp hqmem
        obtain ⟨hcc, hreq⟩ := (mem_bSplits r yy cc zz).mp hqb
        have hRe := (mem_sepSplits (str "/resourceGroups/") _ x r).mp hmem
        rw [hreq] at hRe
        obtain ⟨e1, e2, e3⟩ := snapshot_decomposition_unique sub rg name x yy zz cc
          hs1 hr1 hn1 hRe.symm
        rw [e1, e2, e3]
    · rw [if_neg hx] at hf
      cases hf
  have hne : (sepSplits (str "/resourceGroups/")
      (sub ++ (str "/resourceGroups/" ++ (rg ++ (bPat '.' ++ name))))).filterMap
        parseCand ≠ [] := by
    have hmem0 : (sub, rg ++ (bPat '.' ++ name)) ∈
        sepSplits (str "/resourceGroups/")
          (sub ++ (str "/resourceGroups/" ++ (rg ++ (bPat '.' ++ name)))) :=
      (mem_sepSplits _ _ _ _).mpr rfl
    have hbmem : (rg, '.', name) ∈ bSplits (rg ++ (bPat '.' ++ name)) :=
      (mem_bSplits _ _ _ _).mpr ⟨by decide, rfl⟩
    have hfl : (rg, '.', name) ∈
        (bSplits (rg ++ (bPat '.' ++ name))).filter (fun q => noNL q.1 && noNL q.2.2) :=
      List.mem_filter.mpr ⟨hbmem, by
        simp only [Bool.and_eq_true]
        exact ⟨(noNL_iff rg).mpr hr2, (noNL_iff name).mpr hn2⟩⟩
    obtain ⟨q0, hq0⟩ := getLast?_exists _ (List.ne_nil_of_mem hfl)
    obtain ⟨y0, c0, z0⟩ := q0
    have hcand : parseCand (sub, rg ++ (bPat '.' ++ name)) =
        some ⟨sub, y0, z0⟩ := by
      unfold parseCand
      rw [if_pos ((noNL_iff sub).mpr hs2), hq0]
    exact List.ne_nil_of_mem
      (List.mem_filterMap.mpr ⟨(sub, rg ++ (bPat '.' ++ name)), hmem0, hcand⟩)
  obtain ⟨a, ha⟩ := getLast?_exists _ hne
  rw [ha, hall a (List.mem_of_getLast?_eq_some ha)]

/-- C10 counterexample: subscription `"s"`, resource group `"r"` and name
`"providers/Microsoft.Compute/snapshots/x"` contain neither separator
substring, yet parsing the constructed resource name does not give back
those components: the greedy `(.*)` groups make the second group swallow
the literal `/providers/Microsoft.Compute/snapshots/` occurrence that the
name re-creates, so the parsed resource group is
`"r/providers/Microsoft.Compute/snapshots"` and the parsed name `"x"`. -/
theorem parseFullSnapshotName_not_inverse :
    containsSeq (str "s") (str "/resourceGroups/") = false
    ∧ containsSeq (str "s") (str "/providers/Microsoft.Compute/snapshots/") = false
    ∧ containsSeq (str "r") (str "/resourceGroups/") = false
    ∧ containsSeq (str "r") (str "/providers/Microsoft.Compute/snapshots/") = false
    ∧ containsSeq (str "providers/Microsoft.Compute/snapshots/x")
        (str "/resourceGroups/") = false
    ∧ containsSeq (str "providers/Microsoft.Compute/snapshots/x")
        (str "/providers/Microsoft.Compute/snapshots/") = false
    ∧ parseFullSnapshotName (getComputeResourceName (str "s") (str "r")
        (str "snapshots") (str "providers/Microsoft.Compute/snapshots/x")) =
      some ⟨str "s", str "r/providers/Microsoft.Compute/snapshots", str "x"⟩
    ∧ parseFullSnapshotName (getComputeResourceName (str "s") (str "r")
        (str "snapshots") (str "providers/Microsoft.Compute/snapshots/x")) ≠
      some ⟨str "s", str "r", str "providers/Microsoft.Compute/snapshots/x"⟩ := by
  refine ⟨by decide, by decide, by decide, by decide, by decide, by decide,
    by decide, by decide⟩

theorem parseFullSnapshotName_roundtrip_witness :
    ('/' ∉ str "subid") ∧ ('\n' ∉ str "subid")
    ∧ ('/' ∉ str "my-rg") ∧ ('\n' ∉ str "my-rg")
    ∧ ('/' ∉ str "disk-1-abcd") ∧ ('\n' ∉ str "disk-1-abcd")
    ∧ parseFullSnapshotName (getComputeResourceName (str "subid") (str "my-rg")
        (str "snapshots") (str "disk-1-abcd")) =
      some ⟨str "subid", str "my-rg", str "disk-1-abcd"⟩ :=
  ⟨by decide, by decide, by decide, by decide, by decide, by decide,
   parseFullSnapshotName_roundtrip (str "subid") (str "my-rg") (str "disk-1-abcd")
     (by decide) (by decide) (by decide) (by decide) (by decide) (by decide)⟩
